import Mathlib

/-
Verification development for the Arduino serial data collector.

The headline variant `Arduino_Data_Collector.py` drives a serial read loop:
each raw line is stripped, every character in `delimiters` is replaced by a
space, and the result is whitespace-split into tokens (lines 278-283).  The
first record becomes the column headers, either verbatim (when the
controller prints headers) or synthesized as `Col0..ColN-1` (lines 292-299);
every later record becomes a row, where pandas raises a length-mismatch
error if the token count disagrees with the header count (lines 302-308).
The loop ends on reaching the sample count, on a serial disconnect, or on a
keyboard interrupt (lines 310-315), after which the program previews the
data, saves it, and prints a report (lines 317-334).  Saving derives a
collision-free filename by suffixing an incrementing parenthesized counter
(lines 186-191); the `Program_Files` variant adds yes/no prompts and an
overwrite prompt (`Program_Files/Arduino_Data_Collector.py` lines 33-38 and
92-116).  All definitions below are translated from that source, except the
one definition that restates the specification text, which is named and
documented as such.
-/

/-! ### Record Normalizer: `Arduino_Data_Collector.py` lines 278-283 -/

/-- Python whitespace for no-argument `str.split` / `str.strip` (ASCII range). -/
def isWs (c : Char) : Bool :=
  c == ' ' || c == '\t' || c == '\n' || c == '\r' || c == '\x0b' || c == '\x0c'

/-- Python `str.lstrip()` on a character list. -/
def lstrip (cs : List Char) : List Char :=
  cs.dropWhile isWs

/-- Python `str.rstrip()` on a character list. -/
def rstrip (cs : List Char) : List Char :=
  (cs.reverse.dropWhile isWs).reverse

/-- Python `str.strip()` (line 278: `ser.readline().decode().strip()`). -/
def pyStrip (cs : List Char) : List Char :=
  rstrip (lstrip cs)

/-- The delimiter set of the source (line 22: `delimiters = [';', '|', ':', ',']`). -/
def delimiters : List Char :=
  [';', '|', ':', ',']

/-- Python `str.replace(d, ' ')` for a single-character pattern. -/
def replaceChar (d : Char) (cs : List Char) : List Char :=
  cs.map fun c => if c = d then ' ' else c

/-- Lines 281-282: `for delimiter in delimiters: raw_data = raw_data.replace(delimiter, ' ')`. -/
def seqReplace (ds : List Char) (cs : List Char) : List Char :=
  ds.foldl (fun acc d => replaceChar d acc) cs

/-- Helper for Python `str.split()`: the accumulator holds the current token reversed. -/
def splitWsAux : List Char → List Char → List (List Char)
  | [], [] => []
  | a :: as, [] => [(a :: as).reverse]
  | [], c :: cs => if isWs c then splitWsAux [] cs else splitWsAux [c] cs
  | a :: as, c :: cs =>
    if isWs c then (a :: as).reverse :: splitWsAux [] cs
    else splitWsAux (c :: a :: as) cs

/-- Python `str.split()` with no argument: split on whitespace runs (line 283). -/
def splitWs (cs : List Char) : List (List Char) :=
  splitWsAux [] cs

/-- The Record Normalizer as the source implements it (lines 278-283):
strip the raw line, replace each delimiter in turn by a space, then
whitespace-split.  -/
def normalizeLine (s : String) : List String :=
  (splitWs (seqReplace delimiters (pyStrip s.data))).map String.mk

/-- The specification's wording of one normalization step: a delimiter
character becomes a space, any other character is unchanged. -/
def substDelim (c : Char) : Char :=
  if c ∈ delimiters then ' ' else c

/-- Normalization as the specification words it (spec section 4.1 and the
first testable property): pre-replace every delimiter occurrence with a
space simultaneously, then tokenize the raw line on whitespace runs.
Stated over the raw line directly, for comparison with `normalizeLine`. -/
def specNormalize (s : String) : List String :=
  (splitWs (s.data.map substDelim)).map String.mk

/-! ### Table Accumulator and Session Controller: `Arduino_Data_Collector.py` lines 243-334 -/

/-- Line 298: `f'Col{num}'`. -/
def colName (num : Nat) : String :=
  ("Col") ++ toString num

/-- Lines 292-298: the first record becomes the headers, verbatim when the
controller prints headers, else synthesized as `Col0..ColN-1`. -/
def establishHeaders (tokens : List String) (headersPrinted : Bool) : List String :=
  if headersPrinted then tokens
  else (List.range tokens.length).map colName

/-- One event delivered by `ser.readline()` in the collection loop: a decoded
text line, a `serial.SerialException` (device disconnected), or a
`KeyboardInterrupt` arriving at the blocking read. -/
inductive Ev
  | line (s : String)
  | disconnect
  | interrupt
deriving DecidableEq

/-- Why the collection loop stopped.  `valueError` is the uncaught pandas
length-mismatch exception of line 303 (`tmp_data.columns = headers`), which
escapes `main` entirely; `fuelOut` is an artifact of the fuel-based encoding
and is unreachable with the fuel budget `runLoop` supplies. -/
inductive LoopExit
  | normal
  | disconnected
  | interrupted
  | valueError
  | fuelOut
deriving DecidableEq

/-- Termination cause of a session, as reported at lines 327-330. -/
inductive Cause
  | completed
  | disconnected
  | interrupted
deriving DecidableEq

/-- The ways the epilogue (lines 317-334) can die on an uncaught exception:
the pandas length mismatch escaping the collection loop, `dataframe` being
undefined at `print(dataframe.head())` (line 322) when the loop never ran a
first iteration, and `os.path.split(None)` at line 333 when saving was
skipped. -/
inductive Crash
  | valueErrorLengthMismatch
  | nameErrorDataframe
  | typeErrorPathNone
deriving DecidableEq

/-- The loop variables of `main` (lines 260, 295-307): the sample counter,
the established headers (`none` while `dataframe` is still undefined), and
the accumulated rows. -/
structure LoopState where
  count : Nat
  headers : Option (List String)
  table : List (List String)
deriving DecidableEq

/-- The collection loop of `main`, lines 275-308: `while count < max_count + 1`,
read and normalize one line per iteration, prime headers at `count == 0`,
append a row otherwise.  A row whose token count disagrees with the header
count makes `tmp_data.columns = headers` raise an uncaught `ValueError`.
An empty record under the (necessarily empty) header set raises nothing but
adds no row either: `pd.DataFrame([]).T` has zero rows, so `pd.concat`
appends nothing while `count` still increments.  The fuel argument only
bounds recursion; the `count` guard is the loop condition.  The
`headers = none` row branch is unreachable (count ≥ 1 only after headers
were primed) and maps to the same uncaught-exception exit. -/
def loopGo (headersPrinted : Bool) (maxCount : Nat) (stream : Nat → Ev) :
    Nat → Nat → LoopState → LoopState × LoopExit
  | fuel, i, st =>
    if st.count < maxCount + 1 then
      match fuel with
      | 0 => (st, LoopExit.fuelOut)
      | fuel + 1 =>
        match stream i with
        | Ev.disconnect => (st, LoopExit.disconnected)
        | Ev.interrupt => (st, LoopExit.interrupted)
        | Ev.line s =>
          let tokens := normalizeLine s
          if st.count = 0 then
            loopGo headersPrinted maxCount stream fuel (i + 1)
              ⟨1, some (establishHeaders tokens headersPrinted), []⟩
          else
            match st.headers with
            | none => (st, LoopExit.valueError)
            | some hs =>
              if tokens.length = hs.length then
                loopGo headersPrinted maxCount stream fuel (i + 1)
                  ⟨st.count + 1, some hs,
                    if tokens = [] then st.table else st.table ++ [tokens]⟩
              else (st, LoopExit.valueError)
    else (st, LoopExit.normal)

/-- The collection loop from its initial state (`count = 0`, `dataframe`
undefined, no rows).  Every iteration either exits or increments `count`,
and the guard caps `count` at `maxCount + 1`, so `maxCount + 2` fuel is
never exhausted. -/
def runLoop (headersPrinted : Bool) (maxCount : Nat) (stream : Nat → Ev) :
    LoopState × LoopExit :=
  loopGo headersPrinted maxCount stream (maxCount + 2) 0 ⟨0, none, []⟩

/-- Whether control reaches the epilogue (lines 317-334): yes after the
normal loop exit or a caught `SerialException` / `KeyboardInterrupt`; no
when the pandas `ValueError` escapes. -/
def reachesEpilogue : LoopExit → Bool
  | LoopExit.valueError => false
  | LoopExit.fuelOut => false
  | _ => true

/-- Lines 310-315: `ser.close()` is called only in the `KeyboardInterrupt`
handler. -/
def serClosedOf : LoopExit → Bool
  | LoopExit.interrupted => true
  | _ => false

/-- The `triggerd` status of lines 245, 311, 315, 327-330 as a termination
cause: `None` means a successful run. -/
def causeOf : LoopExit → Option Cause
  | LoopExit.normal => some Cause.completed
  | LoopExit.disconnected => some Cause.disconnected
  | LoopExit.interrupted => some Cause.interrupted
  | LoopExit.valueError => none
  | LoopExit.fuelOut => none

/-- The exception that escapes `main` when the loop itself blew up. -/
def crashOf : LoopExit → Option Crash
  | LoopExit.valueError => some Crash.valueErrorLengthMismatch
  | _ => none

/-- Observable outcome of one run of `main`: final headers and rows, the
reported termination cause, whether the serial port was closed, which
epilogue steps completed (preview at line 322, save at line 324, the
runtime/sample-count report of lines 326-334), where the data was written,
and the exception that escaped `main`, if any. -/
structure Outcome where
  headers : Option (List String)
  table : List (List String)
  cause : Option Cause
  serClosed : Bool
  previewed : Bool
  saveStepRan : Bool
  savedTo : Option String
  reported : Bool
  crash : Option Crash
deriving DecidableEq

/-- The epilogue of `main`, lines 317-334, step by step: the preview
`print(dataframe.head())` raises `NameError` when the loop never primed
(i.e. `dataframe` was never assigned); otherwise `save_data` runs (writing
iff a path was given, line 207); the closing report then evaluates
`os.path.split(path)` at line 333, which raises `TypeError` when the user
skipped saving (`path is None`), so the sample count and runtime are never
printed in that case. -/
def epilogue (path : Option String) (st : LoopState) (ex : LoopExit) : Outcome where
  headers := st.headers
  table := st.table
  cause := causeOf ex
  serClosed := serClosedOf ex
  previewed := reachesEpilogue ex && st.headers.isSome
  saveStepRan := reachesEpilogue ex && st.headers.isSome
  savedTo := if reachesEpilogue ex && st.headers.isSome then path else none
  reported := reachesEpilogue ex && st.headers.isSome && path.isSome
  crash :=
    if reachesEpilogue ex then
      if st.headers.isSome then
        if path.isSome then none else some Crash.typeErrorPathNone
      else some Crash.nameErrorDataframe
    else crashOf ex

/-- One full session of `main` (lines 243-334) after the parameters were
collected: run the collection loop against the event stream, then the
epilogue.  `path = none` is the user skipping the save. -/
def runMain (headersPrinted : Bool) (maxCount : Nat) (path : Option String)
    (stream : Nat → Ev) : Outcome :=
  epilogue path (runLoop headersPrinted maxCount stream).1
    (runLoop headersPrinted maxCount stream).2

/-! ### Persistence: `Arduino_Data_Collector.py` lines 186-191,
`Program_Files/Arduino_Data_Collector.py` lines 92-116 -/

/-- Python `str.rfind` for a single character: index of the last occurrence,
`-1` if absent. -/
def rfindIdx (c : Char) (p : List Char) : Int :=
  match p.reverse.findIdx? (fun x => x == c) with
  | none => -1
  | some k => (p.length : Int) - 1 - (k : Int)

/-- CPython `os.path.splitext` (posix): split off the extension at the last
dot, unless that dot only leads the basename. -/
def splitext (p : List Char) : List Char × List Char :=
  let sepIndex := rfindIdx ('/') p
  let dotIndex := rfindIdx ('.') p
  if sepIndex < dotIndex then
    let seg := (p.drop (sepIndex + 1).toNat).take (dotIndex - sepIndex - 1).toNat
    if seg.any (fun x => x != '.') then (p.take dotIndex.toNat, p.drop dotIndex.toNat)
    else (p, [])
  else (p, [])

/-- The collision loop of lines 188-191: `while os.path.exists(path):
path = f'{base} ({count}){ext}'; count += 1`.  `existsP` is the file
system; the fuel bounds the unbounded `while` (`none` = not yet free
within the budget). -/
def resolveLoop (existsP : String → Bool) (base ext : String) :
    Nat → String → Nat → Option String
  | 0, _, _ => none
  | fuel + 1, path, count =>
    if existsP path then
      resolveLoop existsP base ext fuel
        (base ++ (" (") ++ toString count ++ (")") ++ ext) (count + 1)
    else some path

/-- Lines 186-191: split the requested path once into base and extension,
then run the collision loop starting at counter 1. -/
def resolveCollision (existsP : String → Bool) (fuel : Nat) (path : String) :
    Option String :=
  let be := splitext path.data
  resolveLoop existsP (String.mk be.1) (String.mk be.2) fuel path 1

/-- Python `a or b` on strings: the first operand if truthy (non-empty). -/
def pyOrStr (a b : String) : String :=
  if a = ("") then b else a

/-- The membership list `['y' or 'yes']` of lines 35 and 97 of the
`Program_Files` variant: Python evaluates `'y' or 'yes'` to `'y'`, so the
list has the single element `'y'`. -/
def yesAnswers : List String :=
  [pyOrStr ("y") ("yes")]

/-- Python `str.lower()` (ASCII range), character by character. -/
def pyLower (s : String) : String :=
  String.mk (s.data.map Char.toLower)

/-- Line 35 of `Program_Files/Arduino_Data_Collector.py`:
`user.lower() in ['y' or 'yes']` for the print-as-collected prompt. -/
def printAsCollected (resp : String) : Bool :=
  yesAnswers.contains (pyLower resp)

/-- Line 97 of `Program_Files/Arduino_Data_Collector.py`:
`overwrite.lower() in ['y' or 'yes']` for the overwrite prompt. -/
def overwriteChoice (resp : String) : Bool :=
  yesAnswers.contains (pyLower resp)

/-- `get_saving_params` of the `Program_Files` variant, lines 92-116, after
the filename was fixed to `user` (the path is `user + '.csv'`): ask to
overwrite only when the path exists and the name is not the default; when
the user consents the existing path is returned unchanged (and `to_csv`
will overwrite it), otherwise the collision loop derives a fresh name. -/
def getSavingParams (existsP : String → Bool) (user : String)
    (overwriteResp : String) (fuel : Nat) : Option String :=
  let path := user ++ (".csv")
  let overwrite :=
    if existsP path && !(user == ("default")) then overwriteChoice overwriteResp
    else false
  if overwrite then some path
  else if existsP path then resolveCollision existsP fuel path
  else some path

/-! ### Concrete event streams used in the witnesses and counterexamples -/

/-- Turn a finite script of events into a stream; past its end the stream
repeats the default event. -/
def streamOfList (l : List Ev) (d : Ev) (i : Nat) : Ev :=
  l.getD i d

/-- The example scenario of the spec (section 8): a header line and two data
lines. -/
def c5Stream : Nat → Ev :=
  streamOfList
    [Ev.line ("Time;Temp;Pressure"), Ev.line ("1,23.4,101.2"), Ev.line ("2,23.5,101.1")]
    (Ev.line (""))

/-- A three-column header followed by a two-token record. -/
def c1Stream : Nat → Ev :=
  streamOfList [Ev.line ("a b c"), Ev.line ("1 2"), Ev.line ("3 4 5")] (Ev.line ("3 4 5"))

/-- A stream of empty lines. -/
def emptyLineStream : Nat → Ev :=
  fun _ => Ev.line ("")

/-- An endless supply of well-formed two-field records. -/
def pairStream : Nat → Ev :=
  fun _ => Ev.line ("1,2")

/-- The raw lines of `pairStream`. -/
def pairLines : Nat → String :=
  fun _ => ("1,2")

/-- Header, three rows, then the device disconnects. -/
def c7Stream : Nat → Ev :=
  streamOfList
    [Ev.line ("t;x;y"), Ev.line ("1,2,3"), Ev.line ("4,5,6"), Ev.line ("7,8,9"), Ev.disconnect]
    Ev.disconnect

/-- The raw lines of `c7Stream` while it is connected. -/
def c7Lines : Nat → String :=
  fun i => ([("t;x;y"), ("1,2,3"), ("4,5,6"), ("7,8,9")]).getD i ("")

/-- The device is gone before the first record arrives. -/
def discStream : Nat → Ev :=
  fun _ => Ev.disconnect

/-- One two-field record repeated; used for a completed session. -/
def semiStream : Nat → Ev :=
  fun _ => Ev.line ("7;8")

/-! ### Normalizer lemmas -/

theorem seqReplace_eq_map : ∀ (ds cs : List Char),
    seqReplace ds cs = cs.map fun c => if c ∈ ds then ' ' else c := by
  intro ds
  induction ds with
  | nil =>
    intro cs
    simp [seqReplace]
  | cons d ds ih =>
    intro cs
    have h1 : seqReplace (d :: ds) cs = seqReplace ds (replaceChar d cs) := by
      simp [seqReplace, List.foldl_cons]
    rw [h1, ih, replaceChar, List.map_map]
    have hfun : ((fun c => if c ∈ ds then ' ' else c) ∘ fun c => if c = d then ' ' else c)
        = fun c => if c ∈ d :: ds then ' ' else c := by
      funext c
      by_cases hc : c = d
      · subst hc
        simp
      · simp [hc, List.mem_cons]
    rw [hfun]

theorem mem_takeWhile_prop {α : Type} (p : α → Bool) :
    ∀ (l : List α) (a : α), a ∈ l.takeWhile p → p a = true := by
  intro l
  induction l with
  | nil =>
    intro a h
    simp [List.takeWhile] at h
  | cons x l ih =>
    intro a h
    by_cases hx : p x = true
    · rw [List.takeWhile_cons_of_pos hx] at h
      rcases List.mem_cons.mp h with rfl | h'
      · exact hx
      · exact ih a h'
    · rw [List.takeWhile_cons_of_neg hx] at h
      simp at h

theorem splitWsAux_nil_cons (c : Char) (cs : List Char) :
    splitWsAux [] (c :: cs) = if isWs c then splitWsAux [] cs else splitWsAux [c] cs := rfl

theorem splitWsAux_cons_cons (a c : Char) (as cs : List Char) :
    splitWsAux (a :: as) (c :: cs)
      = if isWs c then (a :: as).reverse :: splitWsAux [] cs
        else splitWsAux (c :: a :: as) cs := rfl

theorem splitWsAux_leading_ws : ∀ (ws : List Char), (∀ c ∈ ws, isWs c = true) →
    ∀ (X : List Char), splitWsAux [] (ws ++ X) = splitWsAux [] X := by
  intro ws
  induction ws with
  | nil =>
    intro _ X
    rfl
  | cons w ws ih =>
    intro hws X
    have hw : isWs w = true := hws w (List.mem_cons_self _ _)
    have hrest : ∀ c ∈ ws, isWs c = true := fun c hc => hws c (List.mem_cons_of_mem _ hc)
    show splitWsAux [] (w :: (ws ++ X)) = splitWsAux [] X
    rw [splitWsAux_nil_cons, if_pos hw]
    exact ih hrest X

theorem splitWsAux_all_ws : ∀ (ws : List Char), (∀ c ∈ ws, isWs c = true) →
    ∀ acc, splitWsAux acc ws = splitWsAux acc [] := by
  intro ws
  induction ws with
  | nil =>
    intro _ acc
    rfl
  | cons w ws ih =>
    intro hws acc
    have hw : isWs w = true := hws w (List.mem_cons_self _ _)
    have ih' := ih (fun c hc => hws c (List.mem_cons_of_mem _ hc))
    cases acc with
    | nil =>
      rw [splitWsAux_nil_cons, if_pos hw, ih' []]
    | cons a as =>
      rw [splitWsAux_cons_cons, if_pos hw, ih' []]
      rfl

theorem splitWsAux_ws_suffix : ∀ (ws : List Char), (∀ c ∈ ws, isWs c = true) →
    ∀ (X : List Char) (acc : List Char), splitWsAux acc (X ++ ws) = splitWsAux acc X := by
  intro ws hws X
  induction X with
  | nil =>
    intro acc
    exact splitWsAux_all_ws ws hws acc
  | cons x X ih =>
    intro acc
    cases acc with
    | nil =>
      show splitWsAux [] (x :: (X ++ ws)) = splitWsAux [] (x :: X)
      rw [splitWsAux_nil_cons, splitWsAux_nil_cons]
      by_cases hx : isWs x = true
      · rw [if_pos hx, if_pos hx, ih []]
      · rw [if_neg hx, if_neg hx, ih [x]]
    | cons a as =>
      show splitWsAux (a :: as) (x :: (X ++ ws)) = splitWsAux (a :: as) (x :: X)
      rw [splitWsAux_cons_cons, splitWsAux_cons_cons]
      by_cases hx : isWs x = true
      · rw [if_pos hx, if_pos hx, ih []]
      · rw [if_neg hx, if_neg hx, ih (x :: a :: as)]

theorem substDelim_ws (c : Char) (h : isWs c = true) : substDelim c = c := by
  have hnot : c ∉ delimiters := by
    simp only [isWs, Bool.or_eq_true, beq_iff_eq] at h
    rcases h with ((((h | h) | h) | h) | h) | h <;> subst h <;> decide
  simp [substDelim, hnot]

theorem map_substDelim_fix : ∀ (l : List Char), (∀ c ∈ l, isWs c = true) →
    l.map substDelim = l := by
  intro l
  induction l with
  | nil =>
    intro _
    rfl
  | cons a l ih =>
    intro h
    have ha := substDelim_ws a (h a (List.mem_cons_self _ _))
    have hl := ih (fun c hc => h c (List.mem_cons_of_mem _ hc))
    simp [ha, hl]

theorem splitWs_map_subst_strip (cs : List Char) :
    splitWs ((pyStrip cs).map substDelim) = splitWs (cs.map substDelim) := by
  have htw : ∀ c ∈ cs.takeWhile isWs, isWs c = true :=
    fun c hc => mem_takeWhile_prop isWs cs c hc
  have hdecomp : cs = cs.takeWhile isWs ++ lstrip cs :=
    (List.takeWhile_append_dropWhile isWs cs).symm
  have hlx : ∀ c ∈ (lstrip cs).reverse.takeWhile isWs, isWs c = true :=
    fun c hc => mem_takeWhile_prop isWs (lstrip cs).reverse c hc
  have hdecomp2 : lstrip cs
      = pyStrip cs ++ ((lstrip cs).reverse.takeWhile isWs).reverse := by
    have h1 : (lstrip cs).reverse.takeWhile isWs ++ (lstrip cs).reverse.dropWhile isWs
        = (lstrip cs).reverse := List.takeWhile_append_dropWhile isWs (lstrip cs).reverse
    calc lstrip cs = (lstrip cs).reverse.reverse := (List.reverse_reverse _).symm
      _ = ((lstrip cs).reverse.takeWhile isWs ++ (lstrip cs).reverse.dropWhile isWs).reverse := by
          rw [h1]
      _ = ((lstrip cs).reverse.dropWhile isWs).reverse
            ++ ((lstrip cs).reverse.takeWhile isWs).reverse := by
          rw [List.reverse_append]
      _ = pyStrip cs ++ ((lstrip cs).reverse.takeWhile isWs).reverse := rfl
  have hrev : ∀ c ∈ ((lstrip cs).reverse.takeWhile isWs).reverse, isWs c = true :=
    fun c hc => hlx c (List.mem_reverse.mp hc)
  have hA : splitWs (cs.map substDelim) = splitWs ((lstrip cs).map substDelim) := by
    conv_lhs => rw [hdecomp]
    rw [List.map_append, map_substDelim_fix _ htw]
    exact splitWsAux_leading_ws _ htw _
  have hB : splitWs ((lstrip cs).map substDelim) = splitWs ((pyStrip cs).map substDelim) := by
    conv_lhs => rw [hdecomp2]
    rw [List.map_append, map_substDelim_fix _ hrev]
    exact splitWsAux_ws_suffix _ hrev _ _
  rw [hA, hB]

theorem normalizeLine_eq_spec (s : String) : normalizeLine s = specNormalize s := by
  unfold normalizeLine specNormalize
  rw [seqReplace_eq_map]
  have hsub : (fun c => if c ∈ delimiters then ' ' else c) = substDelim := rfl
  rw [hsub, splitWs_map_subst_strip]

theorem splitWsAux_ne_nil : ∀ (cs acc : List Char) (t : List Char),
    t ∈ splitWsAux acc cs → t ≠ [] := by
  intro cs
  induction cs with
  | nil =>
    intro acc t ht
    cases acc with
    | nil =>
      simp [splitWsAux] at ht
    | cons a as =>
      have : t = (a :: as).reverse := by
        simpa [splitWsAux] using ht
      subst this
      simp
  | cons c cs ih =>
    intro acc t ht
    cases acc with
    | nil =>
      rw [splitWsAux_nil_cons] at ht
      by_cases hc : isWs c = true
      · rw [if_pos hc] at ht
        exact ih [] t ht
      · rw [if_neg hc] at ht
        exact ih [c] t ht
    | cons a as =>
      rw [splitWsAux_cons_cons] at ht
      by_cases hc : isWs c = true
      · rw [if_pos hc] at ht
        rcases List.mem_cons.mp ht with rfl | ht'
        · simp
        · exact ih [] t ht'
      · rw [if_neg hc] at ht
        exact ih (c :: a :: as) t ht

/-! ### Session loop lemmas -/

theorem establishHeaders_length (t : List String) (b : Bool) :
    (establishHeaders t b).length = t.length := by
  cases b <;> simp [establishHeaders]

theorem loopGo_zero (hp : Bool) (mc : Nat) (stream : Nat → Ev) (i : Nat) (st : LoopState) :
    loopGo hp mc stream 0 i st
      = if st.count < mc + 1 then (st, LoopExit.fuelOut) else (st, LoopExit.normal) := rfl

theorem loopGo_stop (hp : Bool) (mc : Nat) (stream : Nat → Ev) (fuel i : Nat) (st : LoopState)
    (h : ¬ st.count < mc + 1) : loopGo hp mc stream fuel i st = (st, LoopExit.normal) := by
  cases fuel <;> rw [loopGo, if_neg h]

theorem loopGo_disconnect_step (hp : Bool) (mc : Nat) (stream : Nat → Ev) (fuel i : Nat)
    (st : LoopState) (h : st.count < mc + 1) (he : stream i = Ev.disconnect) :
    loopGo hp mc stream (fuel + 1) i st = (st, LoopExit.disconnected) := by
  rw [loopGo, if_pos h, he]

theorem loopGo_interrupt_step (hp : Bool) (mc : Nat) (stream : Nat → Ev) (fuel i : Nat)
    (st : LoopState) (h : st.count < mc + 1) (he : stream i = Ev.interrupt) :
    loopGo hp mc stream (fuel + 1) i st = (st, LoopExit.interrupted) := by
  rw [loopGo, if_pos h, he]

theorem loopGo_line_prime (hp : Bool) (mc : Nat) (stream : Nat → Ev) (fuel i : Nat)
    (st : LoopState) (s : String) (h : st.count < mc + 1) (he : stream i = Ev.line s)
    (hc : st.count = 0) :
    loopGo hp mc stream (fuel + 1) i st
      = loopGo hp mc stream fuel (i + 1)
          ⟨1, some (establishHeaders (normalizeLine s) hp), []⟩ := by
  rw [loopGo, if_pos h, he]
  show (if st.count = 0 then _ else _) = _
  rw [if_pos hc]

theorem loopGo_line_append (hp : Bool) (mc : Nat) (stream : Nat → Ev) (fuel i : Nat)
    (st : LoopState) (s : String) (hs : List String)
    (h : st.count < mc + 1) (he : stream i = Ev.line s) (hc : ¬ st.count = 0)
    (hh : st.headers = some hs) (hl : (normalizeLine s).length = hs.length) :
    loopGo hp mc stream (fuel + 1) i st
      = loopGo hp mc stream fuel (i + 1)
          ⟨st.count + 1, some hs,
            if normalizeLine s = [] then st.table
            else st.table ++ [normalizeLine s]⟩ := by
  rw [loopGo, if_pos h, he]
  show (if st.count = 0 then _ else _) = _
  rw [if_neg hc, hh]
  show (if (normalizeLine s).length = hs.length then _ else _) = _
  rw [if_pos hl]

theorem loopGo_line_append_pos (hp : Bool) (mc : Nat) (stream : Nat → Ev) (fuel i : Nat)
    (st : LoopState) (s : String) (hs : List String)
    (h : st.count < mc + 1) (he : stream i = Ev.line s) (hc : ¬ st.count = 0)
    (hh : st.headers = some hs) (hl : (normalizeLine s).length = hs.length)
    (hne : normalizeLine s ≠ []) :
    loopGo hp mc stream (fuel + 1) i st
      = loopGo hp mc stream fuel (i + 1)
          ⟨st.count + 1, some hs, st.table ++ [normalizeLine s]⟩ := by
  rw [loopGo_line_append hp mc stream fuel i st s hs h he hc hh hl, if_neg hne]

theorem loopGo_line_mismatch (hp : Bool) (mc : Nat) (stream : Nat → Ev) (fuel i : Nat)
    (st : LoopState) (s : String) (hs : List String)
    (h : st.count < mc + 1) (he : stream i = Ev.line s) (hc : ¬ st.count = 0)
    (hh : st.headers = some hs) (hl : ¬ (normalizeLine s).length = hs.length) :
    loopGo hp mc stream (fuel + 1) i st = (st, LoopExit.valueError) := by
  rw [loopGo, if_pos h, he]
  show (if st.count = 0 then _ else _) = _
  rw [if_neg hc, hh]
  show (if (normalizeLine s).length = hs.length then _ else _) = _
  rw [if_neg hl]

theorem loopGo_headers_stable (hp : Bool) (mc : Nat) (stream : Nat → Ev) :
    ∀ (fuel i : Nat) (st : LoopState) (hs : List String),
      st.headers = some hs → 1 ≤ st.count →
      (loopGo hp mc stream fuel i st).1.headers = some hs := by
  intro fuel
  induction fuel with
  | zero =>
    intro i st hs hh _
    rw [loopGo_zero]
    by_cases hg : st.count < mc + 1
    · rw [if_pos hg]
      exact hh
    · rw [if_neg hg]
      exact hh
  | succ fuel ih =>
    intro i st hs hh hc1
    by_cases hg : st.count < mc + 1
    · cases hse : stream i with
      | disconnect =>
        rw [loopGo_disconnect_step hp mc stream fuel i st hg hse]
        exact hh
      | interrupt =>
        rw [loopGo_interrupt_step hp mc stream fuel i st hg hse]
        exact hh
      | line s =>
        have hc0 : ¬ st.count = 0 := by omega
        by_cases hl : (normalizeLine s).length = hs.length
        · rw [loopGo_line_append hp mc stream fuel i st s hs hg hse hc0 hh hl]
          exact ih (i + 1) _ hs rfl (by simp)
        · rw [loopGo_line_mismatch hp mc stream fuel i st s hs hg hse hc0 hh hl]
          exact hh
    · rw [loopGo_stop hp mc stream _ i st hg]
      exact hh

theorem loop_complete (hp : Bool) (mc : Nat) (stream : Nat → Ev) (ls : Nat → String)
    (hstream : ∀ j, stream j = Ev.line (ls j)) (hs : List String)
    (hlen : ∀ j, (normalizeLine (ls j)).length = hs.length) (hwpos : 0 < hs.length) :
    ∀ (n : Nat), ∀ (fuel i : Nat) (st : LoopState), n ≤ fuel → st.headers = some hs →
      1 ≤ st.count → st.count + n = mc + 1 →
      (loopGo hp mc stream fuel i st).2 = LoopExit.normal ∧
      (loopGo hp mc stream fuel i st).1.headers = some hs ∧
      (loopGo hp mc stream fuel i st).1.table.length = st.table.length + n := by
  intro n
  induction n with
  | zero =>
    intro fuel i st _ hh _ hcnt
    have hstop : ¬ st.count < mc + 1 := by omega
    rw [loopGo_stop hp mc stream fuel i st hstop]
    exact ⟨rfl, hh, by simp⟩
  | succ n ih =>
    intro fuel i st hf hh hc1 hcnt
    have hg : st.count < mc + 1 := by omega
    cases fuel with
    | zero => omega
    | succ f =>
      have hc0 : ¬ st.count = 0 := by omega
      have hne : normalizeLine (ls i) ≠ [] := by
        intro hemp
        have hli := hlen i
        rw [hemp] at hli
        simp at hli
        omega
      rw [loopGo_line_append_pos hp mc stream f i st (ls i) hs hg (hstream i) hc0 hh
        (hlen i) hne]
      have hrec := ih f (i + 1) ⟨st.count + 1, some hs, st.table ++ [normalizeLine (ls i)]⟩
        (by omega) rfl (by simp) (by simp; omega)
      refine ⟨hrec.1, hrec.2.1, ?_⟩
      rw [hrec.2.2]
      simp
      omega

theorem loop_disconnect (hp : Bool) (mc : Nat) (stream : Nat → Ev) (ls : Nat → String)
    (hs : List String) (hwpos : 0 < hs.length) :
    ∀ (n : Nat), ∀ (fuel i : Nat) (st : LoopState), n + 1 ≤ fuel →
      st.headers = some hs → 1 ≤ st.count → st.count + n ≤ mc →
      (∀ j, i ≤ j → j < i + n → stream j = Ev.line (ls j)) →
      (∀ j, i ≤ j → j < i + n → (normalizeLine (ls j)).length = hs.length) →
      stream (i + n) = Ev.disconnect →
      (loopGo hp mc stream fuel i st).2 = LoopExit.disconnected ∧
      (loopGo hp mc stream fuel i st).1.headers = some hs ∧
      (loopGo hp mc stream fuel i st).1.table.length = st.table.length + n := by
  intro n
  induction n with
  | zero =>
    intro fuel i st hf hh hc1 hcnt _ _ hdisc
    have hg : st.count < mc + 1 := by omega
    cases fuel with
    | zero => omega
    | succ f =>
      rw [loopGo_disconnect_step hp mc stream f i st hg (by simpa using hdisc)]
      exact ⟨rfl, hh, by simp⟩
  | succ n ih =>
    intro fuel i st hf hh hc1 hcnt hlines hlens hdisc
    have hg : st.count < mc + 1 := by omega
    cases fuel with
    | zero => omega
    | succ f =>
      have hc0 : ¬ st.count = 0 := by omega
      have hline_i : stream i = Ev.line (ls i) := hlines i (by omega) (by omega)
      have hlen_i : (normalizeLine (ls i)).length = hs.length := hlens i (by omega) (by omega)
      have hne : normalizeLine (ls i) ≠ [] := by
        intro hemp
        rw [hemp] at hlen_i
        simp at hlen_i
        omega
      rw [loopGo_line_append_pos hp mc stream f i st (ls i) hs hg hline_i hc0 hh hlen_i hne]
      have hdisc' : stream (i + 1 + n) = Ev.disconnect := by
        have : i + 1 + n = i + (n + 1) := by omega
        rw [this]
        exact hdisc
      have hrec := ih f (i + 1) ⟨st.count + 1, some hs, st.table ++ [normalizeLine (ls i)]⟩
        (by omega) rfl (by simp) (by simp; omega)
        (fun j h1 h2 => hlines j (by omega) (by omega))
        (fun j h1 h2 => hlens j (by omega) (by omega))
        hdisc'
      refine ⟨hrec.1, hrec.2.1, ?_⟩
      rw [hrec.2.2]
      simp
      omega

theorem runLoop_prime (hp : Bool) (mc : Nat) (stream : Nat → Ev) (s0 : String)
    (h0 : stream 0 = Ev.line s0) :
    runLoop hp mc stream
      = loopGo hp mc stream (mc + 1) 1
          ⟨1, some (establishHeaders (normalizeLine s0) hp), []⟩ := by
  rw [runLoop]
  exact loopGo_line_prime hp mc stream (mc + 1) 0 ⟨0, none, []⟩ s0 (by simp) h0 rfl

theorem runMain_headers (hp : Bool) (mc : Nat) (path : Option String) (stream : Nat → Ev) :
    (runMain hp mc path stream).headers = (runLoop hp mc stream).1.headers := rfl

theorem runMain_table (hp : Bool) (mc : Nat) (path : Option String) (stream : Nat → Ev) :
    (runMain hp mc path stream).table = (runLoop hp mc stream).1.table := rfl

theorem runMain_cause (hp : Bool) (mc : Nat) (path : Option String) (stream : Nat → Ev) :
    (runMain hp mc path stream).cause = causeOf (runLoop hp mc stream).2 := rfl

theorem runMain_serClosed (hp : Bool) (mc : Nat) (path : Option String) (stream : Nat → Ev) :
    (runMain hp mc path stream).serClosed = serClosedOf (runLoop hp mc stream).2 := rfl

theorem runMain_headers_of_first_line (hp : Bool) (mc : Nat) (path : Option String)
    (stream : Nat → Ev) (s0 : String) (h0 : stream 0 = Ev.line s0) :
    (runMain hp mc path stream).headers
      = some (establishHeaders (normalizeLine s0) hp) := by
  rw [runMain_headers, runLoop_prime hp mc stream s0 h0]
  exact loopGo_headers_stable hp mc stream (mc + 1) 1 _ _ rfl (by simp)

theorem runMain_previewed (hp : Bool) (mc : Nat) (path : Option String) (stream : Nat → Ev) :
    (runMain hp mc path stream).previewed
      = (reachesEpilogue (runLoop hp mc stream).2
          && (runLoop hp mc stream).1.headers.isSome) := rfl

theorem runMain_savedTo (hp : Bool) (mc : Nat) (path : Option String) (stream : Nat → Ev) :
    (runMain hp mc path stream).savedTo
      = if reachesEpilogue (runLoop hp mc stream).2
          && (runLoop hp mc stream).1.headers.isSome then path else none := rfl

theorem runMain_reported (hp : Bool) (mc : Nat) (path : Option String) (stream : Nat → Ev) :
    (runMain hp mc path stream).reported
      = (reachesEpilogue (runLoop hp mc stream).2
          && (runLoop hp mc stream).1.headers.isSome && path.isSome) := rfl

theorem runMain_crash (hp : Bool) (mc : Nat) (path : Option String) (stream : Nat → Ev) :
    (runMain hp mc path stream).crash
      = (if reachesEpilogue (runLoop hp mc stream).2 then
          if (runLoop hp mc stream).1.headers.isSome then
            if path.isSome then none else some Crash.typeErrorPathNone
          else some Crash.nameErrorDataframe
        else crashOf (runLoop hp mc stream).2) := rfl

/-! ### Persistence lemmas -/

theorem resolveLoop_zero (existsP : String → Bool) (base ext path : String) (count : Nat) :
    resolveLoop existsP base ext 0 path count = none := rfl

theorem resolveLoop_succ (existsP : String → Bool) (base ext : String) (fuel : Nat)
    (path : String) (count : Nat) :
    resolveLoop existsP base ext (fuel + 1) path count
      = if existsP path then
          resolveLoop existsP base ext fuel
            (base ++ (" (") ++ toString count ++ (")") ++ ext) (count + 1)
        else some path := rfl

theorem resolveLoop_fresh (existsP : String → Bool) (base ext : String) :
    ∀ (fuel : Nat) (path : String) (count : Nat) (q : String),
      resolveLoop existsP base ext fuel path count = some q → existsP q = false := by
  intro fuel
  induction fuel with
  | zero =>
    intro path count q h
    rw [resolveLoop_zero] at h
    cases h
  | succ f ih =>
    intro path count q h
    rw [resolveLoop_succ] at h
    by_cases he : existsP path = true
    · rw [if_pos he] at h
      exact ih _ _ q h
    · rw [if_neg he] at h
      have hq := Option.some.inj h
      subst hq
      simpa using he

theorem yesAnswers_eq : yesAnswers = [("y")] := rfl

/-! ### The claims -/

/-- C1: the claim says a record whose token count disagrees with the header
count is rejected, dropped and reported while the session continues; the code
instead lets the pandas length-mismatch `ValueError` of
`tmp_data.columns = headers` escape `main`, aborting the whole session: after
the three-column header `a b c` a two-token record `1 2` kills the run with
no further rows collected and no preview, save or report. -/
theorem c1_mismatch_aborts_session :
    (runMain true 2 (some ("p.csv")) c1Stream).crash = some Crash.valueErrorLengthMismatch ∧
    (runMain true 2 (some ("p.csv")) c1Stream).cause = none ∧
    (runMain true 2 (some ("p.csv")) c1Stream).table = [] ∧
    (runMain true 2 (some ("p.csv")) c1Stream).previewed = false ∧
    (runMain true 2 (some ("p.csv")) c1Stream).saveStepRan = false ∧
    (runMain true 2 (some ("p.csv")) c1Stream).reported = false :=
  ⟨rfl, rfl, rfl, rfl, rfl, rfl⟩

/-- C2: on every raw line the source's normalization (strip, replace each
delimiter by a space in turn, whitespace-split) produces exactly the token
sequence of the spec's description (pre-replace all delimiters with spaces,
then split on whitespace runs); every produced token is non-empty, and the
empty line yields the empty token sequence. -/
theorem c2_normalize_spec :
    (∀ s : String, normalizeLine s = specNormalize s) ∧
    (∀ (s t : String), t ∈ normalizeLine s → t ≠ ("")) ∧
    normalizeLine ("") = [] := by
  refine ⟨normalizeLine_eq_spec, ?_, rfl⟩
  intro s t ht
  simp only [normalizeLine] at ht
  rcases List.mem_map.mp ht with ⟨u, hu, rfl⟩
  have hne : u ≠ [] := splitWsAux_ne_nil _ [] u hu
  intro hcon
  apply hne
  have hdata := congrArg String.data hcon
  simpa using hdata

/-- C2 witness: the general statements applied at the concrete raw line
`1;2, 3` and its first token. -/
theorem c2_normalize_spec_witness :
    normalizeLine ("1;2, 3") = specNormalize ("1;2, 3") ∧ ("1" : String) ≠ ("") :=
  ⟨c2_normalize_spec.1 ("1;2, 3"),
   c2_normalize_spec.2.1 ("1;2, 3") ("1") (by decide)⟩

/-- C3 counterexample: the claim says an empty first record always aborts the
session with a schema error before any rows are collected; in the code the
empty first record primes a zero-column header set and the session keeps
running — further empty records advance the counter without adding rows
(`pd.DataFrame([]).T` has no rows to concatenate) — and completes without
any error. -/
theorem c3_empty_headers_counterexample :
    (runMain true 1 (some ("p.csv")) emptyLineStream).headers = some [] ∧
    (runMain true 1 (some ("p.csv")) emptyLineStream).table = [] ∧
    (runMain true 1 (some ("p.csv")) emptyLineStream).cause = some Cause.completed ∧
    (runMain true 1 (some ("p.csv")) emptyLineStream).crash = none :=
  ⟨rfl, rfl, rfl, rfl⟩

/-- C3 amended: establishing headers from an empty first record never fails —
no schema check exists — and yields the zero-column header set; the session
is not aborted (the loop keeps consuming records and terminates normally,
its counter advancing while the zero-column table stays empty). -/
theorem c3_empty_headers_amended (hp : Bool) (mc : Nat) (path : Option String)
    (stream : Nat → Ev) (h0 : stream 0 = Ev.line ("")) :
    (runMain hp mc path stream).headers = some [] := by
  rw [runMain_headers_of_first_line hp mc path stream ("") h0]
  cases hp <;> rfl

/-- C3 witness: the amended theorem at the all-empty-lines stream. -/
theorem c3_empty_headers_amended_witness :
    (runMain false 2 none emptyLineStream).headers = some [] :=
  c3_empty_headers_amended false 2 none emptyLineStream rfl

/-- C4: a session over a live, never-faulting source whose well-formed
records all carry the same positive field count collects exactly N rows —
the first record primes the headers and is not stored as a row — and
terminates with cause completed. -/
theorem c4_completion (hp : Bool) (mc : Nat) (path : Option String)
    (stream : Nat → Ev) (ls : Nat → String)
    (hstream : ∀ j, stream j = Ev.line (ls j))
    (hlen : ∀ j, (normalizeLine (ls j)).length = (normalizeLine (ls 0)).length)
    (hwidth : 0 < (normalizeLine (ls 0)).length) (_hpos : 0 < mc) :
    (runMain hp mc path stream).table.length = mc ∧
    (runMain hp mc path stream).cause = some Cause.completed ∧
    (runMain hp mc path stream).headers
      = some (establishHeaders (normalizeLine (ls 0)) hp) := by
  have hslen : (establishHeaders (normalizeLine (ls 0)) hp).length
      = (normalizeLine (ls 0)).length := establishHeaders_length _ _
  have hlen' : ∀ j, (normalizeLine (ls j)).length
      = (establishHeaders (normalizeLine (ls 0)) hp).length := by
    intro j
    rw [hslen]
    exact hlen j
  have hrl := runLoop_prime hp mc stream (ls 0) (hstream 0)
  have hmain := loop_complete hp mc stream ls hstream _ hlen'
    (by rw [hslen]; exact hwidth) mc (mc + 1) 1
    ⟨1, some (establishHeaders (normalizeLine (ls 0)) hp), []⟩ (by omega) rfl (by simp)
    (by show 1 + mc = mc + 1; omega)
  refine ⟨?_, ?_, ?_⟩
  · rw [runMain_table, hrl]
    simpa using hmain.2.2
  · rw [runMain_cause, hrl, hmain.1]
    rfl
  · rw [runMain_headers, hrl]
    exact hmain.2.1

/-- C4 witness: three samples from a steady two-field source, hypotheses
discharged at the concrete stream. -/
theorem c4_completion_witness :
    0 < 3 ∧
    (runMain false 3 (some ("p.csv")) pairStream).table.length = 3 ∧
    (runMain false 3 (some ("p.csv")) pairStream).cause = some Cause.completed := by
  have h := c4_completion false 3 (some ("p.csv")) pairStream pairLines
    (fun j => rfl) (fun j => rfl) (by decide) (by norm_num)
  exact ⟨by norm_num, h.1, h.2.1⟩

/-- C5: at priming, the headers equal the first record's tokens verbatim when
the source supplies its own header line, and are synthesized as
`Col0..ColN-1` otherwise; on the spec's example stream (`Time;Temp;Pressure`
then two data lines, two samples, headers supplied) the table carries headers
`Time, Temp, Pressure` and exactly the two parsed rows. -/
theorem c5_priming :
    (∀ (mc : Nat) (path : Option String) (stream : Nat → Ev) (s0 : String),
      stream 0 = Ev.line s0 →
      (runMain true mc path stream).headers = some (normalizeLine s0) ∧
      (runMain false mc path stream).headers
        = some ((List.range (normalizeLine s0).length).map colName)) ∧
    (runMain true 2 (some ("out.csv")) c5Stream).headers
      = some [("Time"), ("Temp"), ("Pressure")] ∧
    (runMain true 2 (some ("out.csv")) c5Stream).table
      = [[("1"), ("23.4"), ("101.2")], [("2"), ("23.5"), ("101.1")]] ∧
    (runMain true 2 (some ("out.csv")) c5Stream).cause = some Cause.completed := by
  refine ⟨?_, rfl, rfl, rfl⟩
  intro mc path stream s0 h0
  constructor
  · rw [runMain_headers_of_first_line true mc path stream s0 h0]
    rfl
  · rw [runMain_headers_of_first_line false mc path stream s0 h0]
    rfl

/-- C5 witness: the general priming statement applied at the example's header
line. -/
theorem c5_priming_witness :
    (runMain true 2 (some ("out.csv")) c5Stream).headers
      = some (normalizeLine ("Time;Temp;Pressure")) :=
  (c5_priming.1 2 (some ("out.csv")) c5Stream ("Time;Temp;Pressure") rfl).1

/-- C6 counterexample: the claim says a save to an existing path always
derives a counter-suffixed name and never overwrites; in the `Program_Files`
variant an existing custom `data.csv` plus an explicit `y` at the overwrite
prompt returns the existing path itself — no ` (1)` suffix — and the
subsequent `to_csv` overwrites that file. -/
theorem c6_overwrite_counterexample :
    getSavingParams (([("data.csv")]).contains) ("data") ("y") 5 = some ("data.csv") ∧
    ([("data.csv")]).contains ("data.csv") = true :=
  ⟨rfl, rfl⟩

/-- C6 amended: the collision loop derives `name (1).csv`, `name (2).csv`, …
with monotonically increasing counters and only ever returns a path that does
not yet exist, so those saves never overwrite; the `Program_Files` prompt
flow also never returns an existing path when the overwrite consent is
declined — but an explicit `y` consent deliberately reuses and overwrites the
existing path (see the counterexample). -/
theorem c6_collision_amended :
    (∀ (existsP : String → Bool) (fuel : Nat) (path q : String),
      resolveCollision existsP fuel path = some q → existsP q = false) ∧
    (∀ (existsP : String → Bool) (user resp : String) (fuel : Nat) (q : String),
      overwriteChoice resp = false →
      getSavingParams existsP user resp fuel = some q → existsP q = false) ∧
    resolveCollision (([("data.csv")]).contains) 5 ("data.csv") = some ("data (1).csv") ∧
    resolveCollision (([("data.csv"), ("data (1).csv")]).contains) 5 ("data.csv")
      = some ("data (2).csv") := by
  have hcoll : ∀ (existsP : String → Bool) (fuel : Nat) (path q : String),
      resolveCollision existsP fuel path = some q → existsP q = false := by
    intro existsP fuel path q h
    exact resolveLoop_fresh existsP _ _ fuel path 1 q h
  refine ⟨hcoll, ?_, rfl, rfl⟩
  intro existsP user resp fuel q hno h
  simp only [getSavingParams, hno] at h
  rw [ite_self] at h
  by_cases hex : existsP (user ++ (".csv")) = true
  · rw [if_neg, if_pos hex] at h
    · exact hcoll existsP fuel _ q h
    · simp
  · rw [if_neg, if_neg hex] at h
    · have hq := Option.some.inj h
      subst hq
      simpa using hex
    · simp

/-- C6 witness: the never-overwrite statement of the amended theorem at a
concrete collision. -/
theorem c6_collision_amended_witness :
    (([("data.csv")]).contains) ("data (1).csv") = false :=
  c6_collision_amended.1 (([("data.csv")]).contains) 5 ("data.csv") ("data (1).csv")
    (by decide)

/-- C7 counterexample: the claim covers every disconnect-interrupted session,
including those whose user skipped saving; there a disconnect after 3 of 10
requested rows still preserves the rows and the cause, but the closing report
does not run — it dies at `os.path.split(None)`. -/
theorem c7_report_counterexample :
    (runMain true 10 none c7Stream).table.length = 3 ∧
    (runMain true 10 none c7Stream).cause = some Cause.disconnected ∧
    (runMain true 10 none c7Stream).reported = false ∧
    (runMain true 10 none c7Stream).crash = some Crash.typeErrorPathNone :=
  ⟨rfl, rfl, rfl, rfl⟩

/-- C7 amended: a disconnect after k of N accepted well-formed rows
(0 < k < N, records of uniform positive field count) stops collection at
once — the final table has exactly those k rows and the cause is
disconnected — and when saving was requested the preview, the save of the
data gathered so far and the closing report all still run; when saving was skipped
the closing report crashes instead (see the counterexample). -/
theorem c7_disconnect_amended (hp : Bool) (mc k : Nat) (p : String)
    (stream : Nat → Ev) (ls : Nat → String)
    (hk : 0 < k) (hkmc : k < mc)
    (hlines : ∀ i, i ≤ k → stream i = Ev.line (ls i))
    (hlens : ∀ i, i ≤ k → (normalizeLine (ls i)).length = (normalizeLine (ls 0)).length)
    (hwidth : 0 < (normalizeLine (ls 0)).length)
    (hdisc : stream (k + 1) = Ev.disconnect) :
    (runMain hp mc (some p) stream).table.length = k ∧
    (runMain hp mc (some p) stream).cause = some Cause.disconnected ∧
    (runMain hp mc (some p) stream).savedTo = some p ∧
    (runMain hp mc (some p) stream).previewed = true ∧
    (runMain hp mc (some p) stream).reported = true ∧
    (runMain hp mc (some p) stream).crash = none := by
  have hslen : (establishHeaders (normalizeLine (ls 0)) hp).length
      = (normalizeLine (ls 0)).length := establishHeaders_length _ _
  have hrl := runLoop_prime hp mc stream (ls 0) (hlines 0 (by omega))
  have hrec := loop_disconnect hp mc stream ls (establishHeaders (normalizeLine (ls 0)) hp)
    (by rw [hslen]; exact hwidth)
    k (mc + 1) 1 ⟨1, some (establishHeaders (normalizeLine (ls 0)) hp), []⟩
    (by omega) rfl (by simp) (by show 1 + k ≤ mc; omega)
    (fun j h1 h2 => hlines j (by omega))
    (fun j h1 h2 => by rw [hslen]; exact hlens j (by omega))
    (by show stream (1 + k) = Ev.disconnect; rw [Nat.add_comm]; exact hdisc)
  refine ⟨?_, ?_, ?_, ?_, ?_, ?_⟩
  · rw [runMain_table, hrl]
    simpa using hrec.2.2
  · rw [runMain_cause, hrl, hrec.1]
    rfl
  · rw [runMain_savedTo, hrl, hrec.1, hrec.2.1]
    rfl
  · rw [runMain_previewed, hrl, hrec.1, hrec.2.1]
    rfl
  · rw [runMain_reported, hrl, hrec.1, hrec.2.1]
    rfl
  · rw [runMain_crash, hrl, hrec.1, hrec.2.1]
    rfl

/-- C7 witness: the amended theorem at the concrete scenario — a disconnect
after three of ten requested rows, saving requested. -/
theorem c7_disconnect_amended_witness :
    (runMain true 10 (some ("w.csv")) c7Stream).table.length = 3 ∧
    (runMain true 10 (some ("w.csv")) c7Stream).cause = some Cause.disconnected ∧
    (runMain true 10 (some ("w.csv")) c7Stream).savedTo = some ("w.csv") := by
  have h := c7_disconnect_amended true 10 3 ("w.csv") c7Stream c7Lines
    (by norm_num) (by norm_num)
    (fun i hi => by interval_cases i <;> rfl)
    (fun i hi => by interval_cases i <;> rfl)
    (by decide)
    rfl
  exact ⟨h.1, h.2.1, h.2.2.1⟩

/-- C8 counterexample: the claim says every exit path closes the serial
connection; a normally completed, crash-free session terminates with the
connection still open. -/
theorem c8_unclosed_counterexample :
    (runMain true 1 (some ("s.csv")) semiStream).cause = some Cause.completed ∧
    (runMain true 1 (some ("s.csv")) semiStream).crash = none ∧
    (runMain true 1 (some ("s.csv")) semiStream).serClosed = false :=
  ⟨rfl, rfl, rfl⟩

/-- C8 amended: the connection is closed on exactly one exit path — the
user-interrupt handler; normal completion, disconnects and escaping
exceptions all end the session with the connection left open. -/
theorem c8_close_amended (hp : Bool) (mc : Nat) (path : Option String) (stream : Nat → Ev) :
    (runMain hp mc path stream).serClosed = true
      ↔ (runMain hp mc path stream).cause = some Cause.interrupted := by
  rw [runMain_serClosed, runMain_cause]
  cases (runLoop hp mc stream).2 <;> simp [serClosedOf, causeOf]

/-- C9: the claim says the end-of-session report and preview always run
without crashing, with zero rows giving an empty preview; in the code a
completed session whose user skipped saving dies with `TypeError` at
`os.path.split(None)` before the sample count and runtime are printed, and a
disconnect before the first record dies with `NameError` at
`print(dataframe.head())`, so the zero-row case crashes instead of showing an
empty preview. -/
theorem c9_report_crash :
    (runMain true 1 none semiStream).cause = some Cause.completed ∧
    (runMain true 1 none semiStream).previewed = true ∧
    (runMain true 1 none semiStream).reported = false ∧
    (runMain true 1 none semiStream).crash = some Crash.typeErrorPathNone ∧
    (runMain true 5 (some ("d.csv")) discStream).cause = some Cause.disconnected ∧
    (runMain true 5 (some ("d.csv")) discStream).table = [] ∧
    (runMain true 5 (some ("d.csv")) discStream).previewed = false ∧
    (runMain true 5 (some ("d.csv")) discStream).crash = some Crash.nameErrorDataframe :=
  ⟨rfl, rfl, rfl, rfl, rfl, rfl, rfl, rfl⟩

/-- C10: in the `Program_Files` variant the membership list `['y' or 'yes']`
contains only `y` (Python short-circuits `'y' or 'yes'` to `'y'`), so both
the print-as-collected prompt and the overwrite prompt take their affirmative
branch exactly when the lowercased response is the single character `y`; in
particular the answer `yes` is treated as a negative answer. -/
theorem c10_yes_iff :
    (∀ resp : String, printAsCollected resp = true ↔ pyLower resp = ("y")) ∧
    (∀ resp : String, overwriteChoice resp = true ↔ pyLower resp = ("y")) ∧
    printAsCollected ("yes") = false ∧
    overwriteChoice ("yes") = false ∧
    printAsCollected ("Y") = true := by
  refine ⟨?_, ?_, rfl, rfl, rfl⟩ <;>
  · intro resp
    simp [printAsCollected, overwriteChoice, yesAnswers_eq, List.contains]
